import Mathlib

/-!
Shallow embedding of `src/basic_eth/src/lib.rs` (an Internet Computer canister
that derives an Ethereum address, reads gas price and balance, converts
ether amounts to wei, and sends signed transactions).

Modelling conventions:
* Machine floats (`f64`) are modelled as exact rationals `ℚ`; the Rust
  saturating cast `as u64` is `f64AsU64` (truncation toward zero, clamped
  to `[0, 2^64 - 1]`).  The `f64` rounding of `eth * 1e18` is abstracted
  to exact multiplication.
* Byte values (`u8`) are `Nat` together with the side condition `< 256`
  where it matters; an Ethereum address (`H160`) is a list of 20 bytes.
* The external collaborators (key-custody derivation, signing, the HTTP
  RPC endpoints) are an oracle record `Env`.  Network endpoints that could
  conceivably be retried are indexed by the attempt number so that the
  number of attempts an operation consumes is observable.
* Each operation returns, besides its `Result`, the updated canister state
  and a `Log` counting the external calls it performed, so that claims of
  the form "makes zero network calls" are statable.
* `Address.from_str` of the `fixed-hash` crate (a dependency, not in the
  repository) is modelled from its documented behaviour: an optional `0x`
  prelude is removed, then exactly 40 hex digits are decoded.
-/

namespace BasicEth

/-- Lowercase hex digit for a value `< 16`, as produced by `hex::encode`. -/
def hexDigitChar (n : Nat) : Char :=
  if n < 10 then Char.ofNat (48 + n) else Char.ofNat (87 + n)

/-- Numeric value of a hex digit character (both cases accepted, as in the
`hex` crate's decoder); `none` on a non-hex character. -/
def hexVal (c : Char) : Option Nat :=
  if 48 ≤ c.toNat ∧ c.toNat ≤ 57 then some (c.toNat - 48)
  else if 97 ≤ c.toNat ∧ c.toNat ≤ 102 then some (c.toNat - 87)
  else if 65 ≤ c.toNat ∧ c.toNat ≤ 70 then some (c.toNat - 55)
  else none

/-- `hex::encode` on a byte list: two lowercase hex digits per byte. -/
def hexEncodeChars : List Nat → List Char
  | [] => []
  | b :: rest => hexDigitChar (b / 16) :: hexDigitChar (b % 16) :: hexEncodeChars rest

/-- `hex::encode` producing a `String`. -/
def hexEncode (bytes : List Nat) : String := String.mk (hexEncodeChars bytes)

/-- Hex decoding of a character list into bytes; fails on odd length or a
non-hex character. -/
def decodeHexChars : List Char → Option (List Nat)
  | [] => some []
  | c1 :: c2 :: rest =>
    match hexVal c1, hexVal c2, decodeHexChars rest with
    | some hi, some lo, some tail => some ((hi * 16 + lo) :: tail)
    | _, _, _ => none
  | [_] => none

/-- `Address::from_str` of the `fixed-hash` crate (dependency code, modelled
from its documented behaviour): remove an optional leading `0x`, then
require exactly 40 hex digits and decode them into 20 bytes. -/
def addressFromStr (s : String) : Except String (List Nat) :=
  let cs := s.data
  let body := if cs.take 2 = ['0', 'x'] then cs.drop 2 else cs
  if body.length = 40 then
    match decodeHexChars body with
    | some bytes => Except.ok bytes
    | none => Except.error "Invalid character"
  else Except.error "Invalid input length"

/-- Rust `as u64` applied to a (here: exact-rational) float: truncate toward
zero and saturate into `[0, 2^64 - 1]`. -/
def f64AsU64 (x : ℚ) : Nat :=
  if x < 0 then 0
  else if (2 ^ 64 : ℚ) ≤ x then 2 ^ 64 - 1
  else (⌊x⌋).toNat

deriving instance DecidableEq for Except

/-- The thread-local canister state: the `ADDRESS` cache cell, initially
the empty string. -/
structure CanisterState where
  address : String
deriving DecidableEq, Repr

/-- The initial state: `RefCell::new("".to_string())`. -/
def initState : CanisterState := ⟨""⟩

/-- The transaction record assembled by `send_eth_in_ether`
(`TransactionParameters`; the fields not listed here are filled by
`Default::default()` in the source and carry no information). -/
structure TransactionParameters where
  /-- The `to` field of the source record (`to` is reserved in Lean). -/
  to_addr : Option (List Nat)
  nonce : Option Nat
  value : Nat
  gas_price : Option Nat
  gas : Nat
deriving DecidableEq, Repr

/-- External collaborators (key-custody service and Ethereum RPC node).
Endpoints that are single network round trips are indexed by the attempt
number, so a theorem can observe how many attempts an operation consumed. -/
structure Env where
  /-- `get_eth_addr(None, None, KEY_NAME)`: the derived 20-byte address or
  an error. -/
  deriveAddr : Except String (List Nat)
  /-- Whether `ICHttp::new(URL, None)` succeeds. -/
  httpOk : Bool
  /-- The error message of a failed `ICHttp::new`. -/
  httpErr : String
  /-- `eth().transaction_count(addr, None)`. -/
  txCount : Except String Nat
  /-- `accounts().sign_transaction(tx, from, key_info, CHAIN_ID)`: the raw
  signed payload for a given record. -/
  sign : TransactionParameters → Except String (List Nat)
  /-- `eth().send_raw_transaction(raw)` outcome of the n-th attempt:
  the transaction hash bytes or an error. -/
  sendRawAttempts : Nat → List Nat → Except String (List Nat)
  /-- `eth().gas_price()` outcome of the n-th attempt. -/
  gasPriceAttempts : Nat → Except String Nat
  /-- `eth().balance(addr, None)`. -/
  balance : Except String Nat

/-- Count of external calls an operation performed, plus the transaction
records it handed to the signer. -/
structure Log where
  deriveCalls : Nat
  txCountCalls : Nat
  signCalls : Nat
  sendCalls : Nat
  signed : List TransactionParameters
deriving DecidableEq, Repr

/-- The log of an operation that performed no external call. -/
def emptyLog : Log := ⟨0, 0, 0, 0, []⟩

/-- Result of `get_eth_address`: the returned `Result`, the updated state,
and how many derivation requests were issued. -/
structure AddrOut where
  result : Except String String
  state : CanisterState
  calls : Nat
deriving DecidableEq, Repr

/-- `get_eth_address`: return the cached address when the cache is
non-empty; otherwise derive, store `"0x" ++ hex`, and return it.  A failed
derivation is returned as-is and the cache is not written. -/
def get_eth_address (st : CanisterState) (env : Env) : AddrOut :=
  if st.address.length > 0 then
    ⟨Except.ok st.address, st, 0⟩
  else
    match env.deriveAddr with
    | Except.error e => ⟨Except.error e, st, 1⟩
    | Except.ok address =>
      ⟨Except.ok ("0x" ++ hexEncode address), ⟨"0x" ++ hexEncode address⟩, 1⟩

/-- Result of `get_eth_gas_price`: the returned `Result` and the number of
gas-price RPC attempts consumed. -/
structure GasOut where
  result : Except String String
  attempts : Nat
deriving DecidableEq, Repr

/-- `get_eth_gas_price`: build the transport, perform one `gas_price()`
call and format the answer. -/
def get_eth_gas_price (env : Env) : GasOut :=
  if env.httpOk = false then ⟨Except.error env.httpErr, 0⟩
  else
    match env.gasPriceAttempts 0 with
    | Except.error e => ⟨Except.error ("get gas price failed: " ++ e), 1⟩
    | Except.ok p => ⟨Except.ok (toString p ++ " WEI"), 1⟩

/-- `get_eth_balance`: resolve the address through `get_eth_address`, then
`Address::from_str(&addr).unwrap()` and a balance query.  The `unwrap`
panic is modelled as the `none` of the outer `Option`; the f64 wei-to-ether
display division is abstracted to exact rational arithmetic. -/
def get_eth_balance (st : CanisterState) (env : Env) :
    Option (Except String String × CanisterState) :=
  match get_eth_address st env with
  | ⟨Except.error e, st', _⟩ =>
    some (Except.error ("get eth address failed: " ++ e), st')
  | ⟨Except.ok addr, st', _⟩ =>
    if env.httpOk = false then some (Except.error env.httpErr, st')
    else
      match addressFromStr addr with
      | Except.error _ => none
      | Except.ok _ =>
        match env.balance with
        | Except.error e => some (Except.error ("get balance failed: " ++ e), st')
        | Except.ok bal =>
          some (Except.ok (toString ((bal : ℚ) / 10 ^ 18) ++ " ETH"), st')

/-- `eth_to_wei`: multiply by `1e18` and cast `as u64`; always `Ok`. -/
def eth_to_wei (eth : ℚ) : Except String String :=
  Except.ok (toString (f64AsU64 (eth * 10 ^ 18)))

/-- The record built at lines 131-138 of the source: recipient, sequence
number and value from the inputs, hard-coded `gas_price` and `gas`. -/
def buildTx (toAddr : List Nat) (txCount : Nat) (value : Nat) :
    TransactionParameters :=
  { to_addr := some toAddr
    nonce := some txCount
    value := value
    gas_price := some 100000000000
    gas := 21000 }

/-- Result of `send_eth_in_ether`. -/
structure SendOut where
  result : Except String String
  state : CanisterState
  log : Log
deriving DecidableEq, Repr

/-- Tail of `send_eth_in_ether` after the sequence number is known: sign
the record and broadcast the raw payload once.  `txCalls` is the number of
transaction-count queries the caller performed. -/
def signAndSubmit (st : CanisterState) (env : Env)
    (tx : TransactionParameters) (txCalls : Nat) : SendOut :=
  match env.sign tx with
  | Except.error e =>
    ⟨Except.error ("sign tx error: " ++ e), st, ⟨1, txCalls, 1, 0, [tx]⟩⟩
  | Except.ok raw =>
    match env.sendRawAttempts 0 raw with
    | Except.ok txhash =>
      ⟨Except.ok ("https://sepolia.etherscan.io/tx/0x" ++ hexEncode txhash),
        st, ⟨1, txCalls, 1, 1, [tx]⟩⟩
    | Except.error e =>
      ⟨Except.error ("Error:" ++ e), st, ⟨1, txCalls, 1, 1, [tx]⟩⟩

/-- `send_eth_in_ether`: reject a non-positive amount, convert it, parse the
recipient, derive the sender address directly from the key-custody service
(the `ADDRESS` cache is neither read nor written), resolve the sequence
number (caller override or one transaction-count query), build the record,
sign it and broadcast it. -/
def send_eth_in_ether (toStr : String) (eth_value : ℚ) (nonce : Option Nat)
    (st : CanisterState) (env : Env) : SendOut :=
  if eth_value ≤ 0 then
    ⟨Except.error ("value=" ++ toString eth_value ++
      " can only be a positive number"), st, emptyLog⟩
  else
    let value := f64AsU64 (eth_value * 10 ^ 18)
    match addressFromStr toStr with
    | Except.error e =>
      ⟨Except.error ("to=" ++ toStr ++ " is not a valid ethereum address. Error="
        ++ e), st, emptyLog⟩
    | Except.ok toAddr =>
      match env.deriveAddr with
      | Except.error e =>
        ⟨Except.error ("get canister eth addr failed: " ++ e), st,
          ⟨1, 0, 0, 0, []⟩⟩
      | Except.ok _fromAddr =>
        if env.httpOk = false then
          ⟨Except.error env.httpErr, st, ⟨1, 0, 0, 0, []⟩⟩
        else
          match nonce with
          | some count => signAndSubmit st env (buildTx toAddr count value) 0
          | none =>
            match env.txCount with
            | Except.error e =>
              ⟨Except.error ("get tx count error: " ++ e), st,
                ⟨1, 1, 0, 0, []⟩⟩
            | Except.ok v => signAndSubmit st env (buildTx toAddr v value) 1

/-! ### Hex encode/decode round trip -/

theorem hexVal_hexDigitChar :
    ∀ n : Fin 16, hexVal (hexDigitChar n.val) = some n.val := by decide

theorem decodeHexChars_hexEncodeChars (bs : List Nat) (h : ∀ b ∈ bs, b < 256) :
    decodeHexChars (hexEncodeChars bs) = some bs := by
  induction bs with
  | nil => rfl
  | cons b rest ih =>
    have hb : b < 256 := h b (List.mem_cons_self b rest)
    have h1 : hexVal (hexDigitChar (b / 16)) = some (b / 16) :=
      hexVal_hexDigitChar ⟨b / 16, by omega⟩
    have h2 : hexVal (hexDigitChar (b % 16)) = some (b % 16) :=
      hexVal_hexDigitChar ⟨b % 16, by omega⟩
    have h3 := ih (fun x hx => h x (List.mem_cons_of_mem _ hx))
    simp only [hexEncodeChars, decodeHexChars, h1, h2, h3]
    have : b / 16 * 16 + b % 16 = b := by omega
    rw [this]

theorem hexEncodeChars_length (bs : List Nat) :
    (hexEncodeChars bs).length = 2 * bs.length := by
  induction bs with
  | nil => rfl
  | cons b rest ih =>
    simp only [hexEncodeChars, List.length_cons, ih]
    omega

theorem hexAddr_data (bs : List Nat) :
    ("0x" ++ hexEncode bs).data = '0' :: 'x' :: hexEncodeChars bs := by
  simp [hexEncode, String.data_append]

theorem addressFromStr_hexEncode (bs : List Nat) (hlen : bs.length = 20)
    (h : ∀ b ∈ bs, b < 256) :
    addressFromStr ("0x" ++ hexEncode bs) = Except.ok bs := by
  unfold addressFromStr
  rw [hexAddr_data]
  simp [List.take, List.drop, hexEncodeChars_length, hlen,
        decodeHexChars_hexEncodeChars bs h]

theorem hexAddr_length_pos (bs : List Nat) :
    0 < ("0x" ++ hexEncode bs).length := by
  have h2 : ("0x" ++ hexEncode bs).length = ("0x" ++ hexEncode bs).data.length := rfl
  rw [h2, hexAddr_data]
  simp

/-! ### C1: unit conversion -/

/-- C1 counterexample: the claim says a negative amount fails with
`InvalidAmount`, but `eth_to_wei (-1)` returns `Ok "0"` (the Rust
saturating `as u64` cast maps every negative float to `0`, and the
function has no error path at all). -/
theorem eth_to_wei_neg_returns_ok : eth_to_wei (-1) = Except.ok "0" := by
  have hx : (-1 : ℚ) * 10 ^ 18 < 0 := by norm_num
  simp only [eth_to_wei, f64AsU64, if_pos hx]
  rfl

/-- C1 amended: `eth_to_wei` never fails.  For a non-negative amount whose
wei value fits in `u64` it returns the decimal string of
`⌊amount * 10^18⌋` (truncation toward zero, which agrees with `floor` on
non-negative inputs, under the exact-arithmetic model of `f64`); for a
negative amount it returns `Ok "0"` instead of an `InvalidAmount` error. -/
theorem eth_to_wei_spec (eth : ℚ) :
    (∃ s, eth_to_wei eth = Except.ok s) ∧
    (eth < 0 → eth_to_wei eth = Except.ok "0") ∧
    (0 ≤ eth → eth * 10 ^ 18 < 2 ^ 64 →
      eth_to_wei eth = Except.ok (toString (⌊eth * 10 ^ 18⌋.toNat))) := by
  refine ⟨⟨_, rfl⟩, ?_, ?_⟩
  · intro hneg
    have hx : eth * 10 ^ 18 < 0 := mul_neg_of_neg_of_pos hneg (by norm_num)
    simp only [eth_to_wei, f64AsU64, if_pos hx]
    rfl
  · intro h0 hlt
    have h1 : ¬(eth * 10 ^ 18 < 0) := not_lt.mpr (mul_nonneg h0 (by norm_num))
    have h2 : ¬((2 ^ 64 : ℚ) ≤ eth * 10 ^ 18) := not_le.mpr hlt
    simp only [eth_to_wei, f64AsU64, if_neg h1, if_neg h2]

/-- C1 witness: `eth_to_wei_spec` evaluated at `-2` (saturates to `"0"`)
and at `3/2` (truncates to `⌊1.5 · 10^18⌋`). -/
theorem eth_to_wei_spec_witness :
    eth_to_wei (-2) = Except.ok "0" ∧
    eth_to_wei (3 / 2) = Except.ok (toString (⌊(3 / 2 : ℚ) * 10 ^ 18⌋.toNat)) :=
  ⟨(eth_to_wei_spec (-2)).2.1 (by norm_num),
   (eth_to_wei_spec (3 / 2)).2.2 (by norm_num) (by norm_num)⟩


/-! ### Concrete collaborator environments for witnesses -/

/-- An arbitrary 20-byte derived address. -/
def addrBytes : List Nat := List.replicate 20 171

/-- Collaborators that all succeed. -/
def envDeriveOk : Env :=
  { deriveAddr := Except.ok addrBytes
    httpOk := true
    httpErr := ""
    txCount := Except.ok 5
    sign := fun _ => Except.ok [1]
    sendRawAttempts := fun _ _ => Except.ok [2]
    gasPriceAttempts := fun _ => Except.ok 42
    balance := Except.ok 0 }

/-- Collaborators whose key-custody derivation fails. -/
def envDeriveFail : Env := { envDeriveOk with deriveAddr := Except.error "boom" }

/-! ### C4: address caching -/

/-- C4: if a `get_eth_address` call returns `Ok s`, an immediately
following call (under arbitrary, possibly different, collaborator
behaviour) returns the identical string `s` from the cache, and the two
calls together issue at most one derivation request. -/
theorem get_eth_address_cached_second_call (st : CanisterState) (env1 env2 : Env)
    (s : String) (h : (get_eth_address st env1).result = Except.ok s) :
    get_eth_address (get_eth_address st env1).state env2 =
      ⟨Except.ok s, (get_eth_address st env1).state, 0⟩ ∧
    (get_eth_address st env1).calls +
      (get_eth_address (get_eth_address st env1).state env2).calls ≤ 1 := by
  by_cases hc : st.address.length > 0
  · have h1 : get_eth_address st env1 = ⟨Except.ok st.address, st, 0⟩ := by
      simp [get_eth_address, hc]
    rw [h1] at h ⊢
    obtain rfl : st.address = s := by simpa using h
    refine ⟨by simp [get_eth_address, hc], by simp [get_eth_address, hc]⟩
  · cases hda : env1.deriveAddr with
    | error e =>
      exfalso
      have h1 : get_eth_address st env1 = ⟨Except.error e, st, 1⟩ := by
        simp [get_eth_address, hc, hda]
      rw [h1] at h
      simp at h
    | ok a =>
      have h1 : get_eth_address st env1 =
          ⟨Except.ok ("0x" ++ hexEncode a), ⟨"0x" ++ hexEncode a⟩, 1⟩ := by
        simp [get_eth_address, hc, hda]
      rw [h1] at h ⊢
      obtain rfl : ("0x" ++ hexEncode a) = s := by simpa using h
      have hlen := hexAddr_length_pos a
      have h2 : (0 : Nat) < "0x".length := by decide
      refine ⟨by simp [get_eth_address, hlen, h2], by simp [get_eth_address, hlen, h2]⟩

/-- C4 witness: `get_eth_address_cached_second_call` on a concrete
successful derivation from the empty cache. -/
theorem get_eth_address_cached_witness :
    get_eth_address (get_eth_address initState envDeriveOk).state envDeriveOk =
      ⟨Except.ok ("0x" ++ hexEncode addrBytes),
        (get_eth_address initState envDeriveOk).state, 0⟩ ∧
    (get_eth_address initState envDeriveOk).calls +
      (get_eth_address (get_eth_address initState envDeriveOk).state envDeriveOk).calls ≤ 1 :=
  get_eth_address_cached_second_call initState envDeriveOk envDeriveOk
    ("0x" ++ hexEncode addrBytes) rfl

/-! ### C8: derivation failure leaves the cache empty -/

/-- C8: when derivation fails, `get_eth_address` returns the derivation
error, the cache stays empty, and a subsequent call issues a fresh
derivation request (it is not served from a stale cache). -/
theorem get_eth_address_failure_leaves_cache (env env2 : Env) (e : String)
    (h : env.deriveAddr = Except.error e) :
    get_eth_address initState env = ⟨Except.error e, initState, 1⟩ ∧
    (get_eth_address (get_eth_address initState env).state env2).calls = 1 := by
  have h1 : get_eth_address initState env = ⟨Except.error e, initState, 1⟩ := by
    simp [get_eth_address, initState, h]
  refine ⟨h1, ?_⟩
  rw [h1]
  cases hd2 : env2.deriveAddr <;> simp [get_eth_address, initState, hd2]

/-- C8 witness: `get_eth_address_failure_leaves_cache` on a concrete
failing derivation, retried against succeeding collaborators. -/
theorem get_eth_address_failure_witness :
    get_eth_address initState envDeriveFail = ⟨Except.error "boom", initState, 1⟩ ∧
    (get_eth_address (get_eth_address initState envDeriveFail).state envDeriveOk).calls = 1 :=
  get_eth_address_failure_leaves_cache envDeriveFail envDeriveOk "boom" rfl

/-! ### C10: the cached string always re-parses; the balance unwrap is safe -/

/-- An `H160` value as delivered by `get_eth_addr`: 20 bytes, each `< 256`. -/
def goodBytes (bs : List Nat) : Prop := bs.length = 20 ∧ ∀ b ∈ bs, b < 256

/-- Invariant of the `ADDRESS` cache: empty, or the `0x`-prefixed hex
encoding of a derived 20-byte address. -/
def CacheWF (st : CanisterState) : Prop :=
  st.address = "" ∨ ∃ bs, goodBytes bs ∧ st.address = "0x" ++ hexEncode bs

/-- C10: under the cache invariant (which holds initially and is preserved
by `get_eth_address`), every string `get_eth_address` returns parses as an
address, so the `Address::from_str(..).unwrap()` inside `get_eth_balance`
never panics (`get_eth_balance` never returns the panic marker `none`). -/
theorem get_eth_balance_no_panic (st : CanisterState) (env : Env)
    (hst : CacheWF st) (hda : ∀ bs, env.deriveAddr = Except.ok bs → goodBytes bs) :
    CacheWF (get_eth_address st env).state ∧
    (∀ s, (get_eth_address st env).result = Except.ok s →
      ∃ bs, addressFromStr s = Except.ok bs) ∧
    get_eth_balance st env ≠ none := by
  rcases hst with hempty | ⟨bs, hgood, haddr⟩
  · have hc : ¬(st.address.length > 0) := by rw [hempty]; simp
    cases hda2 : env.deriveAddr with
    | error e =>
      have h1 : get_eth_address st env = ⟨Except.error e, st, 1⟩ := by
        simp [get_eth_address, hc, hda2]
      refine ⟨by rw [h1]; exact Or.inl hempty, ?_, ?_⟩
      · intro s hs
        rw [h1] at hs
        simp at hs
      · unfold get_eth_balance
        rw [h1]
        simp
    | ok a =>
      have hga : goodBytes a := hda a hda2
      have h1 : get_eth_address st env =
          ⟨Except.ok ("0x" ++ hexEncode a), ⟨"0x" ++ hexEncode a⟩, 1⟩ := by
        simp [get_eth_address, hc, hda2]
      have hparse : addressFromStr ("0x" ++ hexEncode a) = Except.ok a :=
        addressFromStr_hexEncode a hga.1 hga.2
      refine ⟨by rw [h1]; exact Or.inr ⟨a, hga, rfl⟩, ?_, ?_⟩
      · intro s hs
        rw [h1] at hs
        obtain rfl : ("0x" ++ hexEncode a) = s := by simpa using hs
        exact ⟨a, hparse⟩
      · unfold get_eth_balance
        rw [h1]
        by_cases hh : env.httpOk = false <;> cases hb : env.balance <;>
          simp [hh, hb, hparse]
  · have hc : st.address.length > 0 := by rw [haddr]; exact hexAddr_length_pos bs
    have h1 : get_eth_address st env = ⟨Except.ok st.address, st, 0⟩ := by
      simp [get_eth_address, hc]
    have hparse : addressFromStr st.address = Except.ok bs := by
      rw [haddr]; exact addressFromStr_hexEncode bs hgood.1 hgood.2
    refine ⟨by rw [h1]; exact Or.inr ⟨bs, hgood, haddr⟩, ?_, ?_⟩
    · intro s hs
      rw [h1] at hs
      obtain rfl : st.address = s := by simpa using hs
      exact ⟨bs, hparse⟩
    · unfold get_eth_balance
      rw [h1]
      by_cases hh : env.httpOk = false <;> cases hb : env.balance <;>
        simp [hh, hb, hparse]

/-- C10 witness: `get_eth_balance_no_panic` from the fresh state with a
concrete well-formed derived address. -/
theorem get_eth_balance_no_panic_witness :
    get_eth_balance initState envDeriveOk ≠ none :=
  (get_eth_balance_no_panic initState envDeriveOk (Or.inl rfl)
    (fun bs h => by
      have h2 : addrBytes = bs := by injection h
      rw [← h2]
      exact ⟨by decide, by decide⟩)).2.2


/-! ### The send path -/

theorem signAndSubmit_log (st : CanisterState) (env : Env)
    (tx : TransactionParameters) (txCalls : Nat) :
    (signAndSubmit st env tx txCalls).log.deriveCalls = 1 ∧
    (signAndSubmit st env tx txCalls).log.txCountCalls = txCalls ∧
    (signAndSubmit st env tx txCalls).log.signed = [tx] ∧
    (signAndSubmit st env tx txCalls).state = st := by
  unfold signAndSubmit
  cases hs : env.sign tx with
  | error e => simp [hs]
  | ok raw => cases hr : env.sendRawAttempts 0 raw <;> simp [hs, hr]

/-! ### C6: eager input validation, zero external calls -/

/-- C6: a negative amount and an unparsable recipient are both rejected
with the corresponding validation error before any external call: the log
of the run is `emptyLog` and the state is untouched. -/
theorem send_validates_before_external_calls (toStr : String) (nonce : Option Nat)
    (st : CanisterState) (env : Env) :
    (∀ eth : ℚ, eth < 0 →
      send_eth_in_ether toStr eth nonce st env =
        ⟨Except.error ("value=" ++ toString eth ++ " can only be a positive number"),
          st, emptyLog⟩) ∧
    (∀ (eth : ℚ) (e : String), 0 < eth → addressFromStr toStr = Except.error e →
      send_eth_in_ether toStr eth nonce st env =
        ⟨Except.error ("to=" ++ toStr ++ " is not a valid ethereum address. Error=" ++ e),
          st, emptyLog⟩) := by
  constructor
  · intro eth hneg
    have h0 : eth ≤ 0 := le_of_lt hneg
    simp [send_eth_in_ether, if_pos h0]
  · intro eth e hpos hparse
    have h0 : ¬(eth ≤ 0) := not_le.mpr hpos
    simp [send_eth_in_ether, if_neg h0, hparse]

/-- C6 witness: `send_validates_before_external_calls` at a negative
amount and at a malformed recipient, against fully live collaborators. -/
theorem send_validates_witness :
    send_eth_in_ether "0xdead" (-1) none initState envDeriveOk =
      ⟨Except.error ("value=" ++ toString (-1 : ℚ) ++ " can only be a positive number"),
        initState, emptyLog⟩ ∧
    send_eth_in_ether "0xdead" 1 none initState envDeriveOk =
      ⟨Except.error ("to=" ++ "0xdead" ++ " is not a valid ethereum address. Error="
        ++ "Invalid input length"), initState, emptyLog⟩ :=
  ⟨(send_validates_before_external_calls "0xdead" none initState envDeriveOk).1
      (-1) (by norm_num),
   (send_validates_before_external_calls "0xdead" none initState envDeriveOk).2
      1 "Invalid input length" (by norm_num) (by decide)⟩

/-! ### C9: the guard also rejects a zero amount -/

/-- C9: an amount of exactly `0` trips the `eth_value <= 0` guard:
`send_eth_in_ether` fails with the invalid-amount message and performs no
external call (the log is `emptyLog`), although the spec's converter rule
only rejects negative amounts. -/
theorem send_rejects_zero_amount (toStr : String) (nonce : Option Nat)
    (st : CanisterState) (env : Env) :
    send_eth_in_ether toStr 0 nonce st env =
      ⟨Except.error ("value=" ++ toString (0 : ℚ) ++ " can only be a positive number"),
        st, emptyLog⟩ := by
  simp [send_eth_in_ether]

/-! ### C5: sequence-number override -/

/-- C5: with an explicit override `n` the transfer performs no
transaction-count query and signs a record whose sequence field is `n`;
without an override it performs exactly one query and signs a record whose
sequence field is the count the network returned. -/
theorem send_nonce_override (toStr : String) (eth : ℚ)
    (st : CanisterState) (env : Env) (ta fa : List Nat) (n : Nat)
    (hpos : 0 < eth) (hto : addressFromStr toStr = Except.ok ta)
    (hda : env.deriveAddr = Except.ok fa) (hhttp : env.httpOk = true) :
    ((send_eth_in_ether toStr eth (some n) st env).log.txCountCalls = 0 ∧
     (send_eth_in_ether toStr eth (some n) st env).log.signed =
       [buildTx ta n (f64AsU64 (eth * 10 ^ 18))]) ∧
    (∀ c, env.txCount = Except.ok c →
      (send_eth_in_ether toStr eth none st env).log.txCountCalls = 1 ∧
      (send_eth_in_ether toStr eth none st env).log.signed =
        [buildTx ta c (f64AsU64 (eth * 10 ^ 18))]) := by
  have h0 : ¬(eth ≤ 0) := not_le.mpr hpos
  refine ⟨?_, ?_⟩
  · simp only [send_eth_in_ether, if_neg h0, hto, hda, hhttp]
    simp only [Bool.true_eq_false, if_false]
    exact ⟨(signAndSubmit_log st env _ 0).2.1, (signAndSubmit_log st env _ 0).2.2.1⟩
  · intro c hc
    simp only [send_eth_in_ether, if_neg h0, hto, hda, hhttp, hc]
    simp only [Bool.true_eq_false, if_false]
    exact ⟨(signAndSubmit_log st env _ 1).2.1, (signAndSubmit_log st env _ 1).2.2.1⟩

/-- C5 witness: `send_nonce_override` on concrete live collaborators with
override `7` and network count `5`. -/
theorem send_nonce_override_witness :
    ((send_eth_in_ether "0x000000000000000000000000000000000000dead" 1 (some 7)
        initState envDeriveOk).log.txCountCalls = 0 ∧
     (send_eth_in_ether "0x000000000000000000000000000000000000dead" 1 (some 7)
        initState envDeriveOk).log.signed =
       [buildTx (List.replicate 18 0 ++ [222, 173]) 7 (f64AsU64 ((1 : ℚ) * 10 ^ 18))]) ∧
    ((send_eth_in_ether "0x000000000000000000000000000000000000dead" 1 none
        initState envDeriveOk).log.txCountCalls = 1 ∧
     (send_eth_in_ether "0x000000000000000000000000000000000000dead" 1 none
        initState envDeriveOk).log.signed =
       [buildTx (List.replicate 18 0 ++ [222, 173]) 5 (f64AsU64 ((1 : ℚ) * 10 ^ 18))]) :=
  ⟨(send_nonce_override "0x000000000000000000000000000000000000dead" 1 initState
      envDeriveOk (List.replicate 18 0 ++ [222, 173]) addrBytes 7
      (by norm_num) (by decide) rfl rfl).1,
   (send_nonce_override "0x000000000000000000000000000000000000dead" 1 initState
      envDeriveOk (List.replicate 18 0 ++ [222, 173]) addrBytes 7
      (by norm_num) (by decide) rfl rfl).2 5 rfl⟩

/-! ### C7: fixed fee parameters in every assembled record -/

/-- C7: every record the transfer path hands to the signer carries the
hard-coded `gas_price = 100_000_000_000` and `gas = 21000`, while its
recipient, value and (when overridden) sequence fields equal the validated
inputs. -/
theorem send_tx_record_fields (toStr : String) (eth : ℚ) (nonce : Option Nat)
    (st : CanisterState) (env : Env) (ta : List Nat)
    (hto : addressFromStr toStr = Except.ok ta) :
    ∀ tx ∈ (send_eth_in_ether toStr eth nonce st env).log.signed,
      tx.gas_price = some 100000000000 ∧ tx.gas = 21000 ∧
      tx.to_addr = some ta ∧ tx.value = f64AsU64 (eth * 10 ^ 18) ∧
      (∀ n, nonce = some n → tx.nonce = some n) := by
  intro tx htx
  by_cases h0 : eth ≤ 0
  · simp [send_eth_in_ether, if_pos h0, emptyLog] at htx
  · simp only [send_eth_in_ether, if_neg h0, hto] at htx
    cases hda : env.deriveAddr with
    | error e => simp [hda] at htx
    | ok fa =>
      simp only [hda] at htx
      by_cases hh : env.httpOk = false
      · simp [hh] at htx
      · simp only [if_neg hh] at htx
        cases nonce with
        | some n =>
          rw [(signAndSubmit_log st env _ 0).2.2.1] at htx
          simp at htx
          subst htx
          simp [buildTx]
        | none =>
          cases hc : env.txCount with
          | error e => simp [hc] at htx
          | ok c =>
            simp only [hc] at htx
            rw [(signAndSubmit_log st env _ 1).2.2.1] at htx
            simp at htx
            subst htx
            simp [buildTx]


/-! ### C3: the transfer path bypasses the address cache -/

/-- C3 counterexample: after `get_eth_address` has populated the cache, a
(successful) transfer still issues one derivation request to the
key-custody service — the claim says zero.  `send_eth_in_ether` calls
`get_eth_addr` directly instead of the caching `get_eth_address`. -/
theorem send_ignores_cache_counterexample :
    (get_eth_address initState envDeriveOk).state.address = "0x" ++ hexEncode addrBytes ∧
    (send_eth_in_ether "0x000000000000000000000000000000000000dead" 1 (some 0)
        (get_eth_address initState envDeriveOk).state envDeriveOk).result =
      Except.ok ("https://sepolia.etherscan.io/tx/0x" ++ hexEncode [2]) ∧
    (send_eth_in_ether "0x000000000000000000000000000000000000dead" 1 (some 0)
        (get_eth_address initState envDeriveOk).state envDeriveOk).log.deriveCalls = 1 := by
  refine ⟨rfl, ?_, ?_⟩ <;>
  · have h0 : ¬((1 : ℚ) ≤ 0) := by norm_num
    have hto : addressFromStr "0x000000000000000000000000000000000000dead" =
        Except.ok (List.replicate 18 0 ++ [222, 173]) := by decide
    simp [send_eth_in_ether, if_neg h0, hto, signAndSubmit, envDeriveOk]

/-- C3 amended: `send_eth_in_ether` obtains its sender address by a direct
call to the key-custody derivation service, not from the Identity
Resolver's cache: every transfer that passes input validation performs
exactly one derivation call regardless of the cache contents, and the
cache cell is neither read nor written (the state is returned unchanged). -/
theorem send_always_derives (toStr : String) (eth : ℚ) (nonce : Option Nat)
    (st : CanisterState) (env : Env) (ta : List Nat)
    (hpos : 0 < eth) (hto : addressFromStr toStr = Except.ok ta) :
    (send_eth_in_ether toStr eth nonce st env).log.deriveCalls = 1 ∧
    (send_eth_in_ether toStr eth nonce st env).state = st := by
  have h0 : ¬(eth ≤ 0) := not_le.mpr hpos
  simp only [send_eth_in_ether, if_neg h0, hto]
  cases hda : env.deriveAddr with
  | error e => simp [hda]
  | ok fa =>
    simp only [hda]
    by_cases hh : env.httpOk = false
    · simp [hh]
    · simp only [if_neg hh]
      cases nonce with
      | some n =>
        exact ⟨(signAndSubmit_log st env _ 0).1, (signAndSubmit_log st env _ 0).2.2.2⟩
      | none =>
        cases hc : env.txCount with
        | error e => simp [hc]
        | ok c =>
          simp only [hc]
          exact ⟨(signAndSubmit_log st env _ 1).1, (signAndSubmit_log st env _ 1).2.2.2⟩

/-- C3 witness: `send_always_derives` on a state whose cache is already
populated: the derivation service is still called once. -/
theorem send_always_derives_witness :
    (send_eth_in_ether "0x000000000000000000000000000000000000dead" 1 (some 0)
        ⟨"0x" ++ hexEncode addrBytes⟩ envDeriveOk).log.deriveCalls = 1 ∧
    (send_eth_in_ether "0x000000000000000000000000000000000000dead" 1 (some 0)
        ⟨"0x" ++ hexEncode addrBytes⟩ envDeriveOk).state =
      ⟨"0x" ++ hexEncode addrBytes⟩ :=
  send_always_derives "0x000000000000000000000000000000000000dead" 1 (some 0)
    ⟨"0x" ++ hexEncode addrBytes⟩ envDeriveOk (List.replicate 18 0 ++ [222, 173])
    (by norm_num) (by decide)

/-! ### C2: no bounded retry — a single attempt per network operation -/

/-- A network that fails on the first two attempts and succeeds on the
third, for both the gas-price read and the raw-transaction submission. -/
def flakyEnv : Env :=
  { deriveAddr := Except.ok addrBytes
    httpOk := true
    httpErr := ""
    txCount := Except.ok 0
    sign := fun _ => Except.ok [1]
    sendRawAttempts := fun k _ => if k < 2 then Except.error "transient" else Except.ok [2]
    gasPriceAttempts := fun k => if k < 2 then Except.error "transient" else Except.ok 42
    balance := Except.ok 0 }

/-- C2 counterexample: under a network that fails twice and would succeed
on the third attempt, the claim promises a success after three attempts;
the code performs exactly one attempt and surfaces the first failure, for
the gas-price read and for the submission alike. -/
theorem no_retry_counterexample :
    get_eth_gas_price flakyEnv = ⟨Except.error "get gas price failed: transient", 1⟩ ∧
    (send_eth_in_ether "0x000000000000000000000000000000000000dead" 1 (some 0)
        initState flakyEnv).result = Except.error "Error:transient" ∧
    (send_eth_in_ether "0x000000000000000000000000000000000000dead" 1 (some 0)
        initState flakyEnv).log.sendCalls = 1 := by
  refine ⟨rfl, ?_, ?_⟩ <;>
  · have h0 : ¬((1 : ℚ) ≤ 0) := by norm_num
    have hto : addressFromStr "0x000000000000000000000000000000000000dead" =
        Except.ok (List.replicate 18 0 ++ [222, 173]) := by decide
    simp [send_eth_in_ether, if_neg h0, hto, signAndSubmit, flakyEnv]

/-- C2 amended: both operations are single network round trips with no
retry: when the first gas-price attempt fails, `get_eth_gas_price` fails
at once having consumed exactly one attempt; when the first submission
attempt fails, `send_eth_in_ether` fails with the submission error having
made exactly one `send_raw_transaction` call. -/
theorem single_attempt_no_retry :
    (∀ (env : Env) (e : String), env.httpOk = true →
      env.gasPriceAttempts 0 = Except.error e →
      get_eth_gas_price env = ⟨Except.error ("get gas price failed: " ++ e), 1⟩) ∧
    (∀ (toStr : String) (eth : ℚ) (n : Nat) (st : CanisterState) (env : Env)
        (ta fa raw : List Nat) (e : String),
      0 < eth → addressFromStr toStr = Except.ok ta →
      env.deriveAddr = Except.ok fa → env.httpOk = true →
      env.sign (buildTx ta n (f64AsU64 (eth * 10 ^ 18))) = Except.ok raw →
      env.sendRawAttempts 0 raw = Except.error e →
      send_eth_in_ether toStr eth (some n) st env =
        ⟨Except.error ("Error:" ++ e), st,
          ⟨1, 0, 1, 1, [buildTx ta n (f64AsU64 (eth * 10 ^ 18))]⟩⟩) := by
  constructor
  · intro env e hhttp hg
    simp [get_eth_gas_price, hhttp, hg]
  · intro toStr eth n st env ta fa raw e hpos hto hda hhttp hsig hsend
    have h0 : ¬(eth ≤ 0) := not_le.mpr hpos
    simp only [send_eth_in_ether, if_neg h0, hto, hda, hhttp, Bool.true_eq_false,
      if_false]
    unfold signAndSubmit
    simp only [hsig, hsend]

/-- C2 witness: `single_attempt_no_retry` applied to the concrete flaky
network (fails twice, would succeed on the third attempt). -/
theorem single_attempt_no_retry_witness :
    get_eth_gas_price flakyEnv = ⟨Except.error ("get gas price failed: " ++ "transient"), 1⟩ ∧
    send_eth_in_ether "0x000000000000000000000000000000000000dead" 1 (some 0)
        initState flakyEnv =
      ⟨Except.error ("Error:" ++ "transient"), initState,
        ⟨1, 0, 1, 1, [buildTx (List.replicate 18 0 ++ [222, 173]) 0
          (f64AsU64 ((1 : ℚ) * 10 ^ 18))]⟩⟩ :=
  ⟨single_attempt_no_retry.1 flakyEnv "transient" rfl rfl,
   single_attempt_no_retry.2 "0x000000000000000000000000000000000000dead" 1 0
     initState flakyEnv (List.replicate 18 0 ++ [222, 173]) addrBytes [1] "transient"
     (by norm_num) (by decide) rfl rfl rfl rfl⟩


/-- The 20 bytes of the address `0x000000000000000000000000000000000000dead`. -/
def recipientBytes : List Nat := List.replicate 18 0 ++ [222, 173]

/-- C7 witness: `send_tx_record_fields` applied to the record a concrete
successful transfer hands to the signer. -/
theorem send_tx_record_fields_witness :
    (buildTx recipientBytes 9 (f64AsU64 ((1 : ℚ) * 10 ^ 18))).gas_price =
      some 100000000000 ∧
    (buildTx recipientBytes 9 (f64AsU64 ((1 : ℚ) * 10 ^ 18))).gas = 21000 ∧
    (buildTx recipientBytes 9 (f64AsU64 ((1 : ℚ) * 10 ^ 18))).to_addr =
      some recipientBytes ∧
    (buildTx recipientBytes 9 (f64AsU64 ((1 : ℚ) * 10 ^ 18))).value =
      f64AsU64 ((1 : ℚ) * 10 ^ 18) ∧
    (buildTx recipientBytes 9 (f64AsU64 ((1 : ℚ) * 10 ^ 18))).nonce = some 9 := by
  have hto : addressFromStr "0x000000000000000000000000000000000000dead" =
      Except.ok recipientBytes := by decide
  have hmem : buildTx recipientBytes 9 (f64AsU64 ((1 : ℚ) * 10 ^ 18)) ∈
      (send_eth_in_ether "0x000000000000000000000000000000000000dead" 1 (some 9)
        initState envDeriveOk).log.signed := by
    have h0 : ¬((1 : ℚ) ≤ 0) := by norm_num
    simp [send_eth_in_ether, if_neg h0, hto, signAndSubmit, envDeriveOk, buildTx]
  have h := send_tx_record_fields "0x000000000000000000000000000000000000dead" 1
    (some 9) initState envDeriveOk recipientBytes hto
    (buildTx recipientBytes 9 (f64AsU64 ((1 : ℚ) * 10 ^ 18))) hmem
  exact ⟨h.1, h.2.1, h.2.2.1, h.2.2.2.1, h.2.2.2.2 9 rfl⟩

end BasicEth
